import Mathlib

/-
Verification development for the Cubature Kalman Filter of
`src/include/kkl/alg/cubature_kalman_filter..hpp` (class `kkl::alg::CubatureKalmanFilterX`).

Modelling conventions, matching the source:
* The C++ class is templated over a scalar type `T`; the embedding is generic over a
  `Field α` and is instantiated at `ℚ` for concrete evaluations.
* Eigen dynamic matrices are modelled by `Mat α`: explicit row/column counts plus a total
  entry function (entries outside the stated bounds are junk and never relied upon).
* Eigen's binary matrix operations require operands of identical dimensions and fail a
  runtime assertion otherwise; the checked operations `Mat.add?`, `Mat.sub?`, `Mat.mul?`
  return `none` exactly in the assertion-failure case, and filter operations therefore
  return `Option`.  Accumulation loops over vectors whose operand lengths agree by
  construction (for example `mean_pred += weights[i] * cubature_points.row(i)`, where
  Eigen traverses both sides linearly) are transcribed as direct coordinate sums.
* `Eigen::LLT(...).matrixL()` and the scalar square root are external library calls, passed
  in as parameters `llt` and `sqrtF`; `Eigen::MatrixXt::inverse()` is modelled exactly
  (adjugate over determinant) by `Mat.inverse`.  The `System` template parameter supplies
  the external transition function `f` and observation function `h`.
* The pseudo-random generator members `mt` and `normal_dist` are never consulted by any
  operation and are omitted.
-/

namespace CKF

structure Mat (α : Type) where
  rows : ℕ
  cols : ℕ
  entry : ℕ → ℕ → α

namespace Mat

variable {α : Type} [Field α]

/-- Zero-initialized matrix (`MatrixXt::Zero(r, c)` / `setZero`). -/
def zero (r c : ℕ) : Mat α := ⟨r, c, fun _ _ => 0⟩

/-- Default-constructed Eigen dynamic matrix: 0 rows, 0 columns. -/
def emptyMat : Mat α := zero 0 0

def transpose (A : Mat α) : Mat α := ⟨A.cols, A.rows, fun i j => A.entry j i⟩

/-- Row `i` of a matrix, as a 1×cols matrix (`A.row(i)`). -/
def row (A : Mat α) (i : ℕ) : Mat α := ⟨1, A.cols, fun _ j => A.entry i j⟩

/-- Scalar multiple of a matrix. -/
def smul (c : α) (A : Mat α) : Mat α := ⟨A.rows, A.cols, fun i j => c * A.entry i j⟩

/-- Matrix product, unchecked; meaningful when `A.cols = B.rows`. -/
def mul (A B : Mat α) : Mat α :=
  ⟨A.rows, B.cols, fun i k => ∑ j ∈ Finset.range A.cols, A.entry i j * B.entry j k⟩

/-- Matrix product with Eigen's runtime dimension assertion. -/
def mul? (A B : Mat α) : Option (Mat α) :=
  if A.cols = B.rows then some (mul A B) else none

/-- Matrix sum with Eigen's runtime dimension assertion. -/
def add? (A B : Mat α) : Option (Mat α) :=
  if A.rows = B.rows ∧ A.cols = B.cols then
    some ⟨A.rows, A.cols, fun i j => A.entry i j + B.entry i j⟩
  else none

/-- Matrix difference with Eigen's runtime dimension assertion. -/
def sub? (A B : Mat α) : Option (Mat α) :=
  if A.rows = B.rows ∧ A.cols = B.cols then
    some ⟨A.rows, A.cols, fun i j => A.entry i j - B.entry i j⟩
  else none

/-- Block copy `A.topLeftCorner(p, q)`. -/
def topLeftCorner (A : Mat α) (p q : ℕ) : Mat α := ⟨p, q, fun i j => A.entry i j⟩

/-- Determinant of the `n`-leading square block of an entry function, by Laplace
expansion along the first row. -/
def detAux : (n : ℕ) → (ℕ → ℕ → α) → α
  | 0, _ => 1
  | n + 1, f =>
    ∑ j ∈ Finset.range (n + 1),
      (-1 : α) ^ j * f 0 j * detAux n (fun r c => f (r + 1) (if c < j then c else c + 1))

def det (A : Mat α) : α := detAux A.rows A.entry

/-- Model of Eigen's `inverse()` for square matrices: adjugate over determinant
(entry `i j` is the `(j, i)` cofactor divided by the determinant). -/
def inverse (A : Mat α) : Mat α :=
  ⟨A.rows, A.cols, fun i j =>
    ((-1 : α) ^ (i + j) *
        detAux (A.rows - 1)
          (fun r c => A.entry (if r < j then r else r + 1) (if c < i then c else c + 1))) /
      det A⟩

/-- Extensional equality on the in-range entries. -/
def Equiv (A B : Mat α) : Prop :=
  A.rows = B.rows ∧ A.cols = B.cols ∧ ∀ i < A.rows, ∀ j < A.cols, A.entry i j = B.entry i j

instance [DecidableEq α] (A B : Mat α) : Decidable (A.Equiv B) := by
  unfold Equiv
  infer_instance

/-- Lower-triangularity of the in-range entries. -/
def IsLowerTriangular (L : Mat α) : Prop :=
  ∀ i < L.rows, ∀ j < L.cols, i < j → L.entry i j = 0

instance [DecidableEq α] (L : Mat α) : Decidable L.IsLowerTriangular := by
  unfold IsLowerTriangular
  infer_instance

end Mat

/-- External system model supplied through the `System` template parameter: transition
`f(state, control) → state` and observation `h(state) → measurement`. -/
structure System (α : Type) where
  f : Mat α → Mat α → Mat α
  h : Mat α → Mat α

/-- Filter state: the data members of `CubatureKalmanFilterX` (the vestigial random
generator members are omitted, see the header comment). -/
structure CubatureKalmanFilterX (α : Type) where
  state_dim : ℕ
  input_dim : ℕ
  measurement_dim : ℕ
  mean : Mat α
  cov : Mat α
  system : System α
  process_noise : Mat α
  measurement_noise : Mat α
  weights : Mat α
  cubature_points : Mat α
  ext_weights : Mat α
  ext_cubature_points : Mat α
  expected_measurements : Mat α
  kalman_gain : Mat α

variable {α : Type} [Field α]

/-- Weight vector filled by the constructor (lines 57-60): `weights[i] = 1.0 / S`. -/
def weightsVector (S : ℕ) : Mat α := ⟨S, 1, fun _ _ => 1 / (S : α)⟩

/-- Extended-weight vector filled by the constructor (lines 62-65).  The source assigns
`ext_weights[i] = 1.0 / 2*(N+K);`, which by C++ operator precedence is
`(1.0 / 2) * (N + K)`. -/
def extWeightsVector (N K : ℕ) : Mat α :=
  ⟨2 * (N + K), 1, fun _ _ => (1 / 2 : α) * ((N + K : ℕ) : α)⟩

/-- Constructor `CubatureKalmanFilterX(system, state_dim, input_dim, measurement_dim,
process_noise, measurement_noise, mean, cov)` (lines 36-66).  The buffers
`cubature_points`, `ext_cubature_points` and `expected_measurements` are resized but not
initialized (junk zeros here); `kalman_gain` is left default-constructed, hence 0×0. -/
def mkCubatureKalmanFilterX (system : System α) (state_dim input_dim measurement_dim : ℕ)
    (process_noise measurement_noise mean cov : Mat α) : CubatureKalmanFilterX α :=
  { state_dim := state_dim
    input_dim := input_dim
    measurement_dim := measurement_dim
    mean := mean
    cov := cov
    system := system
    process_noise := process_noise
    measurement_noise := measurement_noise
    weights := weightsVector (2 * state_dim)
    cubature_points := Mat.zero (2 * state_dim) state_dim
    ext_weights := extWeightsVector state_dim measurement_dim
    ext_cubature_points :=
      Mat.zero (2 * (state_dim + measurement_dim)) (state_dim + measurement_dim)
    expected_measurements := Mat.zero (2 * (state_dim + measurement_dim)) measurement_dim
    kalman_gain := Mat.emptyMat }

/-- Getter `getKalmanGain()` (line 161). -/
def getKalmanGain (st : CubatureKalmanFilterX α) : Mat α := st.kalman_gain

/-- Regularizer `ensurePositiveFinite` (lines 221-235): the first statement of its body is
`return;`, so the eigenvalue-clipping code below it is unreachable and the matrix is
returned unchanged. -/
def ensurePositiveFinite (cov : Mat α) : Mat α := cov

/-- Cubature point generation `computeCubaturePoints` (lines 203-215): with
`n = mean.size()`, `l = llt(cov).matrixL() * sqrt(n)`, the generated matrix has
row `i` equal to `mean + l.col(i)` and row `n+i` equal to `mean - l.col(i)` for `i < n`. -/
def computeCubaturePoints (llt : Mat α → Mat α) (sqrtF : α → α) (mean cov : Mat α) : Mat α :=
  let n := mean.rows
  let P_chol := llt cov
  let l := Mat.smul (sqrtF (n : α)) P_chol
  ⟨2 * n, n, fun i j =>
    if i < n then mean.entry j 0 + l.entry j i else mean.entry j 0 - l.entry j (i - n)⟩

/-- Weighted recombination loop of `predict` (lines 86-90):
`mean_pred += weights[i] * cubature_points.row(i)` for `i < count`, accumulated into a
zero-initialized column vector of length `dim` (Eigen traverses the equal-length row and
column vectors linearly). -/
def weightedRowSum (w P : Mat α) (count dim : ℕ) : Mat α :=
  ⟨dim, 1, fun i _ => ∑ k ∈ Finset.range count, w.entry k 0 * P.entry k i⟩

/-- Operation `predict(control)` (lines 72-99).  The propagated points are recombined into
`mean_pred` and `cov_pred`; line 93 subtracts `mean_pred.transpose() * mean_pred` — a
1×1 matrix — from the N×N `cov_pred`, which is dimension-checked like every Eigen
matrix subtraction. -/
def predict (llt : Mat α → Mat α) (sqrtF : α → α) (st : CubatureKalmanFilterX α)
    (control : Mat α) : Option (CubatureKalmanFilterX α) :=
  let S := 2 * st.state_dim
  let pts0 := computeCubaturePoints llt sqrtF st.mean (ensurePositiveFinite st.cov)
  let pts : Mat α :=
    ⟨pts0.rows, pts0.cols, fun i j =>
      (st.system.f (Mat.transpose (Mat.row pts0 i)) control).entry j 0⟩
  let mean_pred := weightedRowSum st.weights pts S st.mean.rows
  let cov_pred0 : Mat α :=
    ⟨st.cov.rows, st.cov.cols, fun r c =>
      ∑ i ∈ Finset.range S, st.weights.entry i 0 * (pts.entry i r * pts.entry i c)⟩
  (Mat.sub? cov_pred0 (Mat.mul (Mat.transpose mean_pred) mean_pred)).bind fun cov_pred1 =>
    (Mat.add? cov_pred1 st.process_noise).bind fun cov_pred2 =>
      some { st with mean := mean_pred, cov := cov_pred2, cubature_points := pts }

/-- Sequence of `predict` calls (used to describe the state before the first `correct`). -/
def predictSeq (llt : Mat α → Mat α) (sqrtF : α → α) :
    CubatureKalmanFilterX α → List (Mat α) → Option (CubatureKalmanFilterX α)
  | st, [] => some st
  | st, c :: cs => (predict llt sqrtF st c).bind fun st1 => predictSeq llt sqrtF st1 cs

/-- Augmented mean of `correct` (lines 107, 109): top N entries are the current mean,
bottom K entries zero. -/
def extMeanPred (st : CubatureKalmanFilterX α) : Mat α :=
  ⟨st.state_dim + st.measurement_dim, 1, fun i _ =>
    if i < st.state_dim then st.mean.entry i 0 else 0⟩

/-- Augmented covariance of `correct` (lines 108, 110-111): top-left N×N block is the
current covariance, bottom-right K×K block is the measurement noise, rest zero. -/
def extCovPred (st : CubatureKalmanFilterX α) : Mat α :=
  ⟨st.state_dim + st.measurement_dim, st.state_dim + st.measurement_dim, fun i j =>
    if i < st.state_dim ∧ j < st.state_dim then st.cov.entry i j
    else if st.state_dim ≤ i ∧ st.state_dim ≤ j then
      st.measurement_noise.entry (i - st.state_dim) (j - st.state_dim)
    else 0⟩

/-- Augmented cubature points of `correct` (lines 113-114). -/
def extCubaturePointsOf (llt : Mat α → Mat α) (sqrtF : α → α)
    (st : CubatureKalmanFilterX α) : Mat α :=
  computeCubaturePoints llt sqrtF (extMeanPred st) (ensurePositiveFinite (extCovPred st))

/-- Expected measurements of `correct` (lines 118-122): for each augmented point,
`h` applied to the first N entries plus the last K entries. -/
def expectedMeasurementsOf (llt : Mat α → Mat α) (sqrtF : α → α)
    (st : CubatureKalmanFilterX α) : Mat α :=
  let N := st.state_dim
  let K := st.measurement_dim
  let pts := extCubaturePointsOf llt sqrtF st
  ⟨2 * (N + K), K, fun i j =>
    (st.system.h ⟨N, 1, fun r _ => pts.entry i r⟩).entry j 0 + pts.entry i (N + j)⟩

/-- Expected measurement mean of `correct` (lines 124-127): sum of
`ext_weights[i] * expected_measurements.row(i)` over all `2(N+K)` rows. -/
def expectedMeasurementMean (llt : Mat α → Mat α) (sqrtF : α → α)
    (st : CubatureKalmanFilterX α) : Mat α :=
  let z := expectedMeasurementsOf llt sqrtF st
  ⟨st.measurement_dim, 1, fun j _ =>
    ∑ i ∈ Finset.range (2 * (st.state_dim + st.measurement_dim)),
      st.ext_weights.entry i 0 * z.entry i j⟩

/-- Expected measurement covariance of `correct` (lines 128-133).  Line 132 reads
`expected_measurement_cov -= expected_measurement_mean.transpose() * mean_pred;` — the
name `mean_pred` is not declared anywhere in `correct` (the file does not compile as
written); the only in-scope vector of the intended role is `expected_measurement_mean`,
so the charitable reading subtracts the 1×1 product `zmeanᵀ·zmean`, dimension-checked
against the K×K accumulator. -/
def expectedMeasurementCov? (llt : Mat α → Mat α) (sqrtF : α → α)
    (st : CubatureKalmanFilterX α) : Option (Mat α) :=
  let K := st.measurement_dim
  let z := expectedMeasurementsOf llt sqrtF st
  let zmean := expectedMeasurementMean llt sqrtF st
  let base : Mat α :=
    ⟨K, K, fun r c =>
      ∑ i ∈ Finset.range (2 * (st.state_dim + K)),
        st.ext_weights.entry i 0 * (z.entry i r * z.entry i c)⟩
  (Mat.sub? base (Mat.mul (Mat.transpose zmean) zmean)).bind fun d =>
    Mat.add? d st.measurement_noise

/-- Cross covariance of `correct` (lines 136-139): the accumulator is declared
`Zero(N, K)`, the loop runs over `i < S` (that is `2N`, not `2(N+K)`), each term
`ext_weights[i] * ext_cubature_points.row(i).transpose() * expected_measurements.row(i)`
is an (N+K)×K matrix, and line 139 subtracts the product
`ext_mean_pred * expected_measurement_mean` (no transpose).  Each `+=`/`-=`/`*` is
dimension-checked as in Eigen.  (Line 138 also lacks its terminating semicolon in the
source.) -/
def crossCov? (llt : Mat α → Mat α) (sqrtF : α → α)
    (st : CubatureKalmanFilterX α) : Option (Mat α) :=
  let S := 2 * st.state_dim
  let pts := extCubaturePointsOf llt sqrtF st
  let z := expectedMeasurementsOf llt sqrtF st
  let zmean := expectedMeasurementMean llt sqrtF st
  ((List.range S).foldlM
      (fun acc i =>
        Mat.add? acc
          (Mat.smul (st.ext_weights.entry i 0)
            (Mat.mul (Mat.transpose (Mat.row pts i)) (Mat.row z i))))
      (Mat.zero st.state_dim st.measurement_dim)).bind fun acc =>
    (Mat.mul? (extMeanPred st) zmean).bind fun prod => Mat.sub? acc prod

/-- Kalman-gain assignment of `correct` (line 141):
`kalman_gain = cross_cov * cross_cov.inverse();` — the matrix being inverted is the
cross-covariance itself, not the expected-measurement covariance. -/
def kalmanGainOf? (cross_cov : Mat α) : Option (Mat α) :=
  Mat.mul? cross_cov (Mat.inverse cross_cov)

/-- Operation `correct(measurement)` (lines 105-149), assembled from the pieces above in
source order, with every Eigen matrix operation dimension-checked. -/
def correct (llt : Mat α → Mat α) (sqrtF : α → α) (st : CubatureKalmanFilterX α)
    (measurement : Mat α) : Option (CubatureKalmanFilterX α) :=
  let N := st.state_dim
  let pts := extCubaturePointsOf llt sqrtF st
  let z := expectedMeasurementsOf llt sqrtF st
  let zmean := expectedMeasurementMean llt sqrtF st
  (expectedMeasurementCov? llt sqrtF st).bind fun zcov =>
    (crossCov? llt sqrtF st).bind fun cross =>
      (kalmanGainOf? cross).bind fun gain =>
        (Mat.sub? measurement zmean).bind fun innovation =>
          (Mat.mul? gain innovation).bind fun corr =>
            (Mat.add? (extMeanPred st) corr).bind fun ext_mean =>
              (Mat.mul? gain zcov).bind fun gz =>
                (Mat.mul? gz (Mat.transpose gain)).bind fun gzg =>
                  (Mat.sub? (extCovPred st) gzg).bind fun ext_cov =>
                    some { st with
                      mean := Mat.topLeftCorner ext_mean N 1
                      cov := Mat.topLeftCorner ext_cov N N
                      ext_cubature_points := pts
                      expected_measurements := z
                      kalman_gain := gain }

/-- Concrete 1×1 rational matrix, for evaluations. -/
def m11 (x : ℚ) : Mat ℚ := ⟨1, 1, fun _ _ => x⟩

/-- Concrete identity matrix, for evaluations. -/
def idMat (n : ℕ) : Mat ℚ := ⟨n, n, fun i j => if i = j then 1 else 0⟩

/-- Concrete stand-in for the library's Cholesky factor extraction, for evaluations. -/
def lltId : Mat ℚ → Mat ℚ := fun A => A

/-- Concrete lower-Cholesky-factor function returning `[[2]]`, for evaluations. -/
def lltW : Mat ℚ → Mat ℚ := fun _ => m11 2

/-- Concrete stand-in for the scalar square root, for evaluations (it is only ever
applied where its value is irrelevant or where the identity is the exact square root). -/
def sqrtQ : ℚ → ℚ := fun x => x

/-- Concrete system model with identity transition and identity observation. -/
def sysId : System ℚ := ⟨fun x _ => x, fun x => x⟩

/-- Concrete system model with a 2-dimensional observation, for K = 2 evaluations. -/
def sysK2 : System ℚ := ⟨fun x _ => x, fun x => ⟨2, 1, fun _ _ => x.entry 0 0⟩⟩

/-- Concrete filter with N = 1, K = 1 (mean 0, unit covariance and noises). -/
def stC6 : CubatureKalmanFilterX ℚ :=
  mkCubatureKalmanFilterX sysId 1 1 1 (m11 1) (m11 1) (m11 0) (m11 1)

/-- Concrete filter with N = 2, K = 1 (mean 0, identity covariance). -/
def stN2 : CubatureKalmanFilterX ℚ :=
  mkCubatureKalmanFilterX sysId 2 1 1 (Mat.zero 2 2) (m11 1) (Mat.zero 2 1) (idMat 2)

/-- Concrete filter with N = 1, K = 2 (mean 0, unit covariance, identity R). -/
def stK2 : CubatureKalmanFilterX ℚ :=
  mkCubatureKalmanFilterX sysK2 1 1 2 (m11 1) (idMat 2) (m11 0) (m11 1)

/-- Measurement equal to the expected measurement mean of `stC6` (which is 0). -/
def measC8 : Mat ℚ := m11 0

/-- C3: for a mean of dimension n and a covariance whose lower Cholesky factor the library
returns as `L`, `computeCubaturePoints` produces exactly 2n points with
`point[i] = mean + col_i(L·√n)` and `point[n+i] = mean − col_i(L·√n)`, and the weighted
mean of the generated points with the constructor weights `1/(2n)` equals the input mean. -/
theorem computeCubaturePoints_spec {α : Type} [Field α] [CharZero α]
    (llt : Mat α → Mat α) (sqrtF : α → α) (mean cov L : Mat α)
    (hn : 0 < mean.rows) (hc : mean.cols = 1) (hL : llt cov = L)
    (hlow : Mat.IsLowerTriangular L)
    (hfact : Mat.Equiv (Mat.mul L (Mat.transpose L)) cov) :
    (computeCubaturePoints llt sqrtF mean cov).rows = 2 * mean.rows ∧
    (∀ i < mean.rows, ∀ j < mean.rows,
      (computeCubaturePoints llt sqrtF mean cov).entry i j
          = mean.entry j 0 + sqrtF (mean.rows : α) * L.entry j i ∧
      (computeCubaturePoints llt sqrtF mean cov).entry (mean.rows + i) j
          = mean.entry j 0 - sqrtF (mean.rows : α) * L.entry j i) ∧
    Mat.Equiv
      (weightedRowSum (weightsVector (2 * mean.rows))
        (computeCubaturePoints llt sqrtF mean cov) (2 * mean.rows) mean.rows) mean := by
  have hpts1 : ∀ k < mean.rows, ∀ j : ℕ,
      (computeCubaturePoints llt sqrtF mean cov).entry k j
        = mean.entry j 0 + sqrtF (mean.rows : α) * L.entry j k := by
    intro k hk j
    simp [computeCubaturePoints, Mat.smul, hk, hL]
  have hpts2 : ∀ k < mean.rows, ∀ j : ℕ,
      (computeCubaturePoints llt sqrtF mean cov).entry (mean.rows + k) j
        = mean.entry j 0 - sqrtF (mean.rows : α) * L.entry j k := by
    intro k hk j
    have h1 : ¬ (mean.rows + k < mean.rows) := by omega
    simp [computeCubaturePoints, Mat.smul, h1, hL]
  refine ⟨rfl, fun i hi j hj => ⟨hpts1 i hi j, hpts2 i hi j⟩, rfl, hc.symm, ?_⟩
  intro i hi j hj
  simp only [weightedRowSum] at hi hj
  obtain rfl : j = 0 := Nat.lt_one_iff.mp hj
  show (∑ k ∈ Finset.range (2 * mean.rows),
      (weightsVector (2 * mean.rows) : Mat α).entry k 0 *
        (computeCubaturePoints llt sqrtF mean cov).entry k i) = mean.entry i 0
  have h2 : 2 * mean.rows = mean.rows + mean.rows := by ring
  rw [h2, Finset.sum_range_add]
  have e1 : ∀ k ∈ Finset.range mean.rows,
      (weightsVector (mean.rows + mean.rows) : Mat α).entry k 0 *
        (computeCubaturePoints llt sqrtF mean cov).entry k i
      = (1 / ((mean.rows + mean.rows : ℕ) : α)) *
          (mean.entry i 0 + sqrtF (mean.rows : α) * L.entry i k) := by
    intro k hk
    rw [hpts1 k (Finset.mem_range.mp hk) i]
    rfl
  have e2 : ∀ k ∈ Finset.range mean.rows,
      (weightsVector (mean.rows + mean.rows) : Mat α).entry (mean.rows + k) 0 *
        (computeCubaturePoints llt sqrtF mean cov).entry (mean.rows + k) i
      = (1 / ((mean.rows + mean.rows : ℕ) : α)) *
          (mean.entry i 0 - sqrtF (mean.rows : α) * L.entry i k) := by
    intro k hk
    rw [hpts2 k (Finset.mem_range.mp hk) i]
    rfl
  rw [Finset.sum_congr rfl e1, Finset.sum_congr rfl e2, ← Finset.sum_add_distrib]
  have e3 : ∀ k ∈ Finset.range mean.rows,
      ((1 / ((mean.rows + mean.rows : ℕ) : α)) *
          (mean.entry i 0 + sqrtF (mean.rows : α) * L.entry i k)
        + (1 / ((mean.rows + mean.rows : ℕ) : α)) *
          (mean.entry i 0 - sqrtF (mean.rows : α) * L.entry i k))
      = (2 / ((mean.rows + mean.rows : ℕ) : α)) * mean.entry i 0 := by
    intro k _
    ring
  rw [Finset.sum_congr rfl e3, Finset.sum_const, Finset.card_range, nsmul_eq_mul]
  push_cast
  field_simp
  have hne2 : ((mean.rows : ℕ) : α) + ((mean.rows : ℕ) : α) ≠ 0 := by
    rw [← Nat.cast_add]
    exact Nat.cast_ne_zero.mpr (by omega)
  rw [div_eq_iff hne2]
  ring

/-- Witness for the cubature-point specification at n = 1, mean `[[3]]`, covariance
`[[4]]`, Cholesky factor `[[2]]`: the weighted point mean recovers `[[3]]`. -/
theorem computeCubaturePoints_spec_witness :
    0 < (m11 (3:ℚ)).rows ∧ Mat.IsLowerTriangular (m11 (2:ℚ)) ∧
    Mat.Equiv (Mat.mul (m11 (2:ℚ)) (Mat.transpose (m11 (2:ℚ)))) (m11 (4:ℚ)) ∧
    Mat.Equiv
      (weightedRowSum (weightsVector (2 * (m11 (3:ℚ)).rows))
        (computeCubaturePoints lltW sqrtQ (m11 3) (m11 4)) (2 * (m11 (3:ℚ)).rows)
        (m11 (3:ℚ)).rows) (m11 (3:ℚ)) := by
  have hfact : Mat.Equiv (Mat.mul (m11 (2:ℚ)) (Mat.transpose (m11 (2:ℚ)))) (m11 (4:ℚ)) := by
    refine ⟨rfl, rfl, ?_⟩
    intro i hi j hj
    simp only [Mat.mul, Mat.transpose, m11] at hi hj
    interval_cases i
    interval_cases j
    norm_num [Mat.mul, Mat.transpose, m11, Finset.sum_range_succ]
  refine ⟨by decide, by decide, hfact, ?_⟩
  exact (computeCubaturePoints_spec lltW sqrtQ (m11 3) (m11 4) (m11 2) (by decide) rfl rfl
    (by decide) hfact).2.2

/-- C9: the regularizer returns immediately and leaves every covariance unchanged, so
cubature-point generation factors exactly the covariance it is handed. -/
theorem ensurePositiveFinite_leaves_cov_unchanged {α : Type} [Field α] :
    (∀ cov : Mat α, ensurePositiveFinite cov = cov) ∧
    (∀ (llt : Mat α → Mat α) (sqrtF : α → α) (mean cov : Mat α),
      computeCubaturePoints llt sqrtF mean (ensurePositiveFinite cov)
        = computeCubaturePoints llt sqrtF mean cov) :=
  ⟨fun _ => rfl, fun _ _ _ _ => rfl⟩

theorem predict_preserves_kalman_gain {α : Type} [Field α] (llt : Mat α → Mat α)
    (sqrtF : α → α) (st st1 : CubatureKalmanFilterX α) (control : Mat α)
    (h : predict llt sqrtF st control = some st1) : st1.kalman_gain = st.kalman_gain := by
  simp only [predict, Option.bind_eq_some, Option.some.injEq] at h
  obtain ⟨a, ha, b, hb, h⟩ := h
  subst h
  rfl

theorem predictSeq_preserves_kalman_gain {α : Type} [Field α] (llt : Mat α → Mat α)
    (sqrtF : α → α) (ctrls : List (Mat α)) :
    ∀ st st1 : CubatureKalmanFilterX α, predictSeq llt sqrtF st ctrls = some st1 →
      st1.kalman_gain = st.kalman_gain := by
  induction ctrls with
  | nil =>
    intro st st1 h
    simp only [predictSeq, Option.some.injEq] at h
    subst h
    rfl
  | cons c cs ih =>
    intro st st1 h
    simp only [predictSeq, Option.bind_eq_some] at h
    obtain ⟨st2, h1, h2⟩ := h
    rw [ih st2 st1 h2, predict_preserves_kalman_gain llt sqrtF st st2 c h1]

/-- C10: the constructor leaves `kalman_gain` default-constructed (0×0) and `predict`
never writes it, so after any sequence of predict calls before the first `correct`,
`getKalmanGain` returns the empty 0×0 matrix. -/
theorem kalmanGain_empty_before_first_correct {α : Type} [Field α] (system : System α)
    (state_dim input_dim measurement_dim : ℕ)
    (process_noise measurement_noise mean cov : Mat α)
    (llt : Mat α → Mat α) (sqrtF : α → α) (ctrls : List (Mat α))
    (st1 : CubatureKalmanFilterX α)
    (h : predictSeq llt sqrtF
        (mkCubatureKalmanFilterX system state_dim input_dim measurement_dim process_noise
          measurement_noise mean cov) ctrls = some st1) :
    (getKalmanGain st1).rows = 0 ∧ (getKalmanGain st1).cols = 0 := by
  have hkg := predictSeq_preserves_kalman_gain llt sqrtF ctrls _ st1 h
  rw [getKalmanGain, hkg]
  exact ⟨rfl, rfl⟩

/-- Witness for the empty Kalman gain after one successful `predict` on a concrete
1-dimensional filter. -/
theorem kalmanGain_empty_witness :
    ((predictSeq lltId sqrtQ
        (mkCubatureKalmanFilterX sysId 1 1 1 (m11 1) (m11 1) (m11 0) (m11 1)) [m11 0]).map
      fun s => ((getKalmanGain s).rows, (getKalmanGain s).cols)) = some (0, 0) := by
  have hs : (predictSeq lltId sqrtQ
      (mkCubatureKalmanFilterX sysId 1 1 1 (m11 1) (m11 1) (m11 0) (m11 1)) [m11 0]).isSome
      = true := rfl
  cases h : predictSeq lltId sqrtQ
      (mkCubatureKalmanFilterX sysId 1 1 1 (m11 1) (m11 1) (m11 0) (m11 1)) [m11 0] with
  | none =>
    rw [h] at hs
    simp at hs
  | some st1 =>
    have hk := kalmanGain_empty_before_first_correct sysId 1 1 1 (m11 1) (m11 1) (m11 0)
      (m11 1) lltId sqrtQ [m11 0] st1 h
    show some ((getKalmanGain st1).rows, (getKalmanGain st1).cols) = some (0, 0)
    rw [hk.1, hk.2]

/-- C1: line 141 computes `kalman_gain = cross_cov * cross_cov.inverse()`, inverting the
cross-covariance instead of the expected-measurement covariance.  At cross-covariance
`[[2]]` and expected-measurement covariance `[[4]]` the code yields `[[1]]` while the
claimed formula yields `[[1/2]]`. -/
theorem kalmanGain_inverts_cross_covariance :
    ((kalmanGainOf? (m11 (2:ℚ))).map fun A => A.entry 0 0) = some 1 ∧
    (Mat.mul (m11 (2:ℚ)) (Mat.inverse (m11 (4:ℚ)))).entry 0 0 = 1 / 2 ∧
    ((1:ℚ) ≠ 1 / 2) := by
  refine ⟨?_, ?_, by norm_num⟩
  · norm_num [kalmanGainOf?, Mat.mul?, Mat.mul, Mat.inverse, Mat.det, Mat.detAux, m11,
      Finset.sum_range_succ]
  · norm_num [Mat.mul, Mat.inverse, Mat.det, Mat.detAux, m11, Finset.sum_range_succ]

/-- C2: the constructor sets every extended weight to `1.0 / 2*(N+K)`, which by C++
precedence is `(N+K)/2`; at N = K = 1 each of the 4 entries is 1 and their sum is 4,
not the claimed `1/(2(N+K)) = 1/4` each with sum 1. -/
theorem extWeights_precedence_defect :
    (∀ N K i : ℕ, (extWeightsVector N K : Mat ℚ).entry i 0 = ((N + K : ℕ) : ℚ) / 2) ∧
    stC6.ext_weights.entry 0 0 = 1 ∧
    (∑ i ∈ Finset.range 4, stC6.ext_weights.entry i 0) = 4 ∧
    ((1 : ℚ) ≠ 1 / 4) ∧ ((4 : ℚ) ≠ 1) := by
  refine ⟨?_, ?_, ?_, by norm_num, by norm_num⟩
  · intro N K i
    simp only [extWeightsVector]
    ring
  · norm_num [stC6, mkCubatureKalmanFilterX, extWeightsVector]
  · norm_num [stC6, mkCubatureKalmanFilterX, extWeightsVector, Finset.sum_range_succ]

/-- C4: `predict` succeeds on a 1-dimensional filter, but on a 2-dimensional filter
line 93 subtracts the 1×1 matrix `mean_pred.transpose() * mean_pred` from the 2×2
`cov_pred` — an Eigen dimension-assertion failure — instead of subtracting the outer
product `mean_pred * mean_pred.transpose()`. -/
theorem predict_dimension_mismatch_N2 :
    (predict lltId sqrtQ stC6 (m11 0)).isSome = true ∧
    predict lltId sqrtQ stN2 (m11 0) = none :=
  ⟨rfl, rfl⟩

/-- C5: the expected-measurement covariance computation succeeds for K = 1 (where the
inner product coincides with the outer product) but aborts for K = 2: line 132 (which
also references the undeclared name `mean_pred`) subtracts a 1×1 matrix from the K×K
accumulator instead of the K×K outer product. -/
theorem expectedMeasurementCov_dimension_mismatch_K2 :
    (expectedMeasurementCov? lltId sqrtQ stC6).isSome = true ∧
    expectedMeasurementCov? lltId sqrtQ stK2 = none :=
  ⟨rfl, rfl⟩

/-- C6: the cross-covariance accumulation aborts for every filter: each loop term is an
(N+K)×K matrix added into the N×K accumulator `Zero(N, K)` (an Eigen dimension
assertion), the loop also covers only 2N of the 2(N+K) points and line 139 omits the
transpose of the expected-measurement mean. -/
theorem crossCov_accumulation_mismatch :
    crossCov? lltId sqrtQ stC6 = none ∧ crossCov? lltId sqrtQ stK2 = none :=
  ⟨rfl, rfl⟩

/-- C7: `computeCubaturePoints` never checks the factorization result, so `predict` on a
covariance that is not positive definite (here `[[-1]]`) still returns a state — for
every library factorization output — rather than failing with a
non-positive-definite-covariance error. -/
theorem predict_no_error_on_nonposdef_cov :
    ((m11 (-1)).entry 0 0 < 0) ∧
    ∀ (llt : Mat ℚ → Mat ℚ) (sqrtF : ℚ → ℚ) (sys : System ℚ) (control : Mat ℚ),
      (predict llt sqrtF (mkCubatureKalmanFilterX sys 1 1 1 (m11 1) (m11 1) (m11 0)
        (m11 (-1))) control).isSome = true :=
  ⟨by norm_num [m11], fun _ _ _ _ => rfl⟩

/-- C8: on the concrete 1-dimensional filter `stC6` the measurement `[[0]]` equals the
expected measurement mean (zero innovation), yet `correct` never reaches the state
update: it aborts at the cross-covariance accumulation, so the call fails instead of
leaving the mean unchanged and shrinking the covariance. -/
theorem correct_zero_innovation_aborts :
    Mat.Equiv measC8 (expectedMeasurementMean lltId sqrtQ stC6) ∧
    correct lltId sqrtQ stC6 measC8 = none := by
  refine ⟨⟨rfl, rfl, ?_⟩, rfl⟩
  intro i hi j hj
  simp only [measC8, m11] at hi hj
  interval_cases i
  interval_cases j
  simp [measC8, m11, expectedMeasurementMean, expectedMeasurementsOf, extCubaturePointsOf,
    computeCubaturePoints, extMeanPred, extCovPred, ensurePositiveFinite, stC6,
    mkCubatureKalmanFilterX, extWeightsVector, sysId, lltId, sqrtQ, Mat.smul,
    Finset.sum_range_succ]

end CKF
